import Mathlib

/-!
Shallow embedding of the classification-and-aggregation core of
`src/App.tsx` (PokerStatsChecker): percentage parsing (`parsePercent`),
range classification (`classify`), per-section computation (`computed`),
aggregation (`sectionStats`, `totals`) and view selection
(`visibleSections`, `rowFilterApply`).

Numeric cell values and range bounds are modelled as rationals (`ℚ`);
the JavaScript runtime primitives the source leans on (`String.trim`,
`String.toLowerCase`, `String.replace` with a string pattern, `Number`
conversion, `Array.sort` with a comparator) are modelled explicitly
below, following ECMAScript semantics.
-/

/-- Model of the ECMAScript WhiteSpace / LineTerminator character classes
used by `String.prototype.trim` and by `Number` string conversion. -/
def isJsWs (c : Char) : Bool :=
  c.toNat = 32 || c.toNat = 9 || c.toNat = 10 || c.toNat = 13 ||
  c.toNat = 11 || c.toNat = 12 || c.toNat = 0xa0 || c.toNat = 0x1680 ||
  (0x2000 ≤ c.toNat && c.toNat ≤ 0x200a) || c.toNat = 0x2028 ||
  c.toNat = 0x2029 || c.toNat = 0x202f || c.toNat = 0x205f ||
  c.toNat = 0x3000 || c.toNat = 0xfeff

/-- Model of `String.prototype.trim` on a character list. -/
def jsTrimList (cs : List Char) : List Char :=
  ((cs.dropWhile isJsWs).reverse.dropWhile isJsWs).reverse

/-- Model of `String.prototype.trim`. -/
def jsTrim (s : String) : String :=
  String.mk (jsTrimList s.data)

/-- Model of `String.prototype.toLowerCase` (ASCII range; the only
comparison made against a lowercased string in the source is with the
ASCII literal "na"). -/
def jsToLower (s : String) : String :=
  String.mk (s.data.map Char.toLower)

/-- Model of `String.prototype.replace("%", "")`: with a string pattern,
`replace` removes only the first occurrence. -/
def removeFirstPercent : List Char → List Char
  | [] => []
  | c :: rest => if c = '%' then rest else c :: removeFirstPercent rest

/-- Numeric value of a decimal digit character. -/
def digitVal (c : Char) : ℕ := c.toNat - 48

/-- Split a leading run of decimal digits from the rest. -/
def takeDigits (cs : List Char) : List Char × List Char :=
  (cs.takeWhile Char.isDigit, cs.dropWhile Char.isDigit)

/-- Value of a decimal digit string. -/
def digitsToNat (ds : List Char) : ℕ :=
  ds.foldl (fun a c => a * 10 + digitVal c) 0

/-- Parse the optional exponent part of an ECMAScript StrDecimalLiteral;
`base` is the value of the mantissa already consumed. Returns `none`
when the remaining characters are not a wellformed (possibly empty)
exponent part. -/
def parseExpTail (base : ℚ) (cs : List Char) : Option ℚ :=
  match cs with
  | [] => some base
  | c :: rest =>
    if c = 'e' || c = 'E' then
      let (sign, rest2) : ℤ × List Char :=
        match rest with
        | '+' :: r2 => (1, r2)
        | '-' :: r2 => (-1, r2)
        | r2 => (1, r2)
      let (ds, rest3) := takeDigits rest2
      if ds.isEmpty || !rest3.isEmpty then none
      else some (base * (10 : ℚ) ^ (sign * (digitsToNat ds : ℤ)))
    else none

/-- Parse an ECMAScript StrUnsignedDecimalLiteral other than the
`Infinity` literal: DecimalDigits [. DecimalDigits] [ExponentPart],
or . DecimalDigits [ExponentPart]. -/
def parseUnsignedDec (cs : List Char) : Option ℚ :=
  let (ip, rest) := takeDigits cs
  match rest with
  | '.' :: rest2 =>
    let (fp, rest3) := takeDigits rest2
    if ip.isEmpty && fp.isEmpty then none
    else
      parseExpTail ((digitsToNat ip : ℚ) + (digitsToNat fp : ℚ) / (10 : ℚ) ^ fp.length) rest3
  | _ =>
    if ip.isEmpty then none else parseExpTail (digitsToNat ip : ℚ) rest

/-- Parse an unsigned ECMAScript numeric string body; the `Infinity`
literal yields `none` here because `Number.isFinite` rejects it. -/
def parseUnsignedOrInf (cs : List Char) : Option ℚ :=
  if cs = "Infinity".data then none else parseUnsignedDec cs

/-- Parse an ECMAScript StrDecimalLiteral (optional sign, then an
unsigned decimal literal). -/
def parseSignedDec (cs : List Char) : Option ℚ :=
  match cs with
  | '+' :: rest => parseUnsignedOrInf rest
  | '-' :: rest => (parseUnsignedOrInf rest).map (fun q => -q)
  | _ => parseUnsignedOrInf cs

/-- Parse a whole non-decimal (binary, octal or hex) integer literal
body: every remaining character must be a digit of the radix. -/
def parseRadix (radix : ℕ) (isDig : Char → Bool) (val : Char → ℕ) (cs : List Char) : Option ℚ :=
  let ds := cs.takeWhile isDig
  let rest := cs.dropWhile isDig
  if ds.isEmpty || !rest.isEmpty then none
  else some ((ds.foldl (fun a c => a * radix + val c) 0 : ℕ) : ℚ)

/-- Hex digit test. -/
def isHexDig (c : Char) : Bool :=
  c.isDigit || ('a' ≤ c && c ≤ 'f') || ('A' ≤ c && c ≤ 'F')

/-- Hex digit value. -/
def hexVal (c : Char) : ℕ :=
  if c.isDigit then digitVal c
  else if 'a' ≤ c && c ≤ 'f' then c.toNat - 87
  else c.toNat - 55

/-- Exact mathematical value of an ECMAScript StringNumericLiteral:
whitespace is trimmed; the empty string has value 0; `0x`/`0o`/`0b`
literals and signed decimal literals with optional fraction and
exponent follow the grammar. `none` stands for NaN (no grammar match);
the `Infinity` literals also yield `none` here, since they have no
rational value and `Number.isFinite` rejects them anyway. -/
def jsNumberMV (s : String) : Option ℚ :=
  match jsTrimList s.data with
  | [] => some 0
  | '0' :: c :: rest =>
    if c = 'x' || c = 'X' then parseRadix 16 isHexDig hexVal rest
    else if c = 'b' || c = 'B' then
      parseRadix 2 (fun d => d = '0' || d = '1') digitVal rest
    else if c = 'o' || c = 'O' then
      parseRadix 8 (fun d => '0' ≤ d && d ≤ '7') digitVal rest
    else parseSignedDec ('0' :: c :: rest)
  | cs => parseSignedDec cs

/-- Round a rational to the nearest integer, ties to even (the
IEEE-754 roundTiesToEven rule on the integer grid). -/
def roundHalfEven (q : ℚ) : ℤ :=
  let f := ⌊q⌋
  let r := q - (f : ℚ)
  if r < 1 / 2 then f
  else if 1 / 2 < r then f + 1
  else if f % 2 = 0 then f else f + 1

/-- Exponent of the rounding quantum when converting the magnitude of
a nonzero rational to IEEE-754 binary64: normal binades round on the
grid of 2^(e-52) where 2^e ≤ |q| < 2^(e+1); magnitudes below the
smallest normal 2^(-1022) round on the subnormal grid of 2^(-1074). -/
def doubleK (q : ℚ) : ℤ :=
  if Int.log 2 |q| < -1022 then -1074 else Int.log 2 |q| - 52

/-- Integer significand obtained by rounding the magnitude of `q` to
the binary64 grid, ties to even. -/
def doubleN (q : ℚ) : ℤ :=
  roundHalfEven (|q| * (2 : ℚ) ^ (-doubleK q))

/-- Magnitude of the binary64 value nearest to `q` (with unbounded
exponent; overflow is checked by the caller). -/
def doubleR (q : ℚ) : ℚ :=
  (doubleN q : ℚ) * (2 : ℚ) ^ doubleK q

/-- Round an exact rational to the nearest IEEE-754 binary64 value
(roundTiesToEven): `none` when the rounded magnitude reaches 2^1024,
i.e. the conversion overflows to an infinity, which `Number.isFinite`
rejects; otherwise the exact rational value of the resulting double
(subnormals and gradual underflow to 0 included). -/
def toDoubleQ (q : ℚ) : Option ℚ :=
  if q = 0 then some 0
  else if (2 : ℚ) ^ (1024 : ℤ) ≤ doubleR q then none
  else some ((if 0 < q then 1 else -1) * doubleR q)

/-- Model of ECMAScript `Number(string)` restricted to finite results:
the string is parsed to the exact mathematical value of the
StringNumericLiteral and that value is rounded to the nearest IEEE-754
binary64 value; the result is `none` exactly when `Number.isFinite`
fails on the conversion - NaN (no grammar match), an `Infinity`
literal, or a finite literal whose value rounds to an infinity
(overflow, e.g. "1e309"). -/
def jsNumberFinite (s : String) : Option ℚ :=
  (jsNumberMV s).bind toDoubleQ

/-- Embedding of `parsePercent` (src/App.tsx lines 18-25): `null` and
`undefined` map to `none`; an empty-after-trim string, the literal "-"
and the case-insensitive literal "na" map to `none`; otherwise the
first "%" character is removed and the remainder converted with
`Number`, keeping only finite results. -/
def parsePercent (value : Option String) : Option ℚ :=
  match value with
  | none => none
  | some v =>
    let s := jsTrim v
    if s.data.isEmpty || s = "-" || jsToLower s = "na" then none
    else jsNumberFinite (String.mk (removeFirstPercent s.data))

/-- Classification outcome (`ResultType` in src/App.tsx line 8):
LOW = below-range, GOOD = in-range, HIGH = above-range. -/
inductive ResultType
  | LOW
  | GOOD
  | HIGH
deriving DecidableEq, Repr

/-- Target range `{min, max}` (src/App.tsx line 13). -/
structure TargetRange where
  min : ℚ
  max : ℚ
deriving DecidableEq, Repr

/-- Embedding of `classify` (src/App.tsx lines 27-31). -/
def classify (value : ℚ) (range : TargetRange) : ResultType :=
  if value ≤ range.min then .LOW
  else if value ≥ range.max then .HIGH
  else .GOOD

/-- Raw row (`Row = Record<string, string>` in src/App.tsx line 7):
an association of column names to raw cell strings. A JavaScript
record keeps one binding per key, later writes winning; rows come from
a CSV header parse so each key occurs at most once, and lookup takes
the last binding to mirror record assignment order. -/
def Row : Type := List (String × String)

/-- Lookup in a JavaScript-record-like association list: the last
binding for the key wins, absent keys give `none` (`undefined`). -/
def recLookup {α : Type} (l : List (String × α)) (k : String) : Option α :=
  (l.reverse.find? (fun p => p.1 = k)).map (fun p => p.2)

/-- Cell access `r[k]` on a raw row. -/
def Row.cell (r : Row) (k : String) : Option String :=
  recLookup r k

instance : DecidableEq Row :=
  inferInstanceAs (DecidableEq (List (String × String)))

/-- Section configuration consumed from the static `SECTIONS` catalog
(imported by src/App.tsx from ./sections; the fields are the ones
App.tsx reads: id, title, column, targetsByPosition, and the three
recommended-action strings). -/
structure Sectn where
  id : String
  title : String
  column : String
  targetsByPosition : List (String × TargetRange)
  lowAction : String
  goodAction : String
  highAction : String
deriving DecidableEq, Repr

/-- Classified row (`ComputedRow` in src/App.tsx lines 9-16). -/
structure ComputedRow where
  position : String
  hands : Option String
  value : ℚ
  target : TargetRange
  result : ResultType
  recAction : String
deriving DecidableEq, Repr

/-- Per-row body of the `computed` loop (src/App.tsx lines 105-131):
resolve the trimmed position label, the section's target range for it
and the parsed metric value; any failure skips the row (`continue`),
otherwise classify and build the `ComputedRow`. -/
def classifyRowOpt (sec : Sectn) (r : Row) : Option ComputedRow :=
  let position := jsTrim ((r.cell "Position").getD "")
  if position.data.isEmpty then none
  else
    match recLookup sec.targetsByPosition position with
    | none => none
    | some target =>
      match parsePercent (r.cell sec.column) with
      | none => none
      | some value =>
        let result := classify value target
        let recAction :=
          match result with
          | .GOOD => sec.goodAction
          | .LOW => sec.lowAction
          | .HIGH => sec.highAction
        some { position := position, hands := r.cell "Hands", value := value,
               target := target, result := result, recAction := recAction }

/-- One section's entry of the `computed` map (src/App.tsx lines
101-135): the rows that survive all three resolution steps, in input
order. -/
def computeSection (sec : Sectn) (rawRows : List Row) : List ComputedRow :=
  rawRows.filterMap (classifyRowOpt sec)

/-- The whole `computed` map: section id to classified rows, built over
the catalog. -/
def computedMap (sections : List Sectn) (rawRows : List Row) : List (String × List ComputedRow) :=
  sections.map (fun s => (s.id, computeSection s rawRows))

/-- Per-section statistics record (element type of `sectionStats`,
src/App.tsx lines 137-145). -/
structure SectionStatsT where
  sec : Sectn
  rows : List ComputedRow
  good : ℕ
  bad : ℕ
  pctGood : ℚ
deriving DecidableEq, Repr

/-- Statistics of one section's classified rows (body of the
`sectionStats` map, src/App.tsx lines 139-143): `good` counts GOOD
rows, `bad` is the remainder, `pctGood` is the percentage of GOOD rows
or 0 for an empty section. -/
def mkSectionStats (s : Sectn) (rows : List ComputedRow) : SectionStatsT :=
  let good := (rows.filter (fun r => r.result = .GOOD)).length
  let bad := rows.length - good
  let pctGood : ℚ :=
    if rows.length ≠ 0 then ((good : ℚ) / (rows.length : ℚ)) * 100 else 0
  { sec := s, rows := rows, good := good, bad := bad, pctGood := pctGood }

/-- Embedding of `sectionStats` (src/App.tsx lines 137-145): one stats
record per catalog section, reading that section's rows from the
computed map (`computed[s.id] ?? []`). -/
def sectionStats (sections : List Sectn) (rawRows : List Row) : List SectionStatsT :=
  sections.map (fun s =>
    mkSectionStats s ((recLookup (computedMap sections rawRows) s.id).getD []))

/-- Totals record (src/App.tsx lines 161-172). -/
structure TotalsT where
  totalRows : ℕ
  totalGood : ℕ
  totalBad : ℕ
  pctGood : ℚ
  sectionsWithData : ℕ
  sectionsWithBad : ℕ
  totalStats : ℕ
  goodStats : ℕ
  badStats : ℕ
  pctGoodStats : ℚ
deriving DecidableEq, Repr

/-- Embedding of `totals` (src/App.tsx lines 147-173): additive
reduction over the per-section statistics. `goodStats` is the literal
constant 0 of line 156, and `badStats` and `pctGoodStats` are derived
from it exactly as the source does. -/
def totals (stats : List SectionStatsT) : TotalsT :=
  let totalRows : ℕ := stats.foldl (fun acc x => acc + x.rows.length) 0
  let totalGood : ℕ := stats.foldl (fun acc x => acc + x.good) 0
  let totalBad : ℕ := totalRows - totalGood
  let pctGood : ℚ :=
    if totalRows ≠ 0 then ((totalGood : ℚ) / (totalRows : ℚ)) * 100 else 0
  let sectionsWithData := (stats.filter (fun x => x.rows.length > 0)).length
  let sectionsWithBad := (stats.filter (fun x => x.bad > 0)).length
  let withData := stats.filter (fun x => x.rows.length > 0)
  let goodStats := 0
  let totalStats := withData.length
  let badStats := totalStats - goodStats
  let pctGoodStats : ℚ :=
    if totalStats ≠ 0 then ((goodStats : ℚ) / (totalStats : ℚ)) * 100 else 0
  { totalRows := totalRows, totalGood := totalGood, totalBad := totalBad,
    pctGood := pctGood, sectionsWithData := sectionsWithData,
    sectionsWithBad := sectionsWithBad, totalStats := totalStats,
    goodStats := goodStats, badStats := badStats, pctGoodStats := pctGoodStats }

/-- Row filter selector ("ALL" | "GOOD" | "BAD" in src/App.tsx). -/
inductive RowFilter
  | ALL
  | GOOD
  | BAD
deriving DecidableEq, Repr

/-- Embedding of `rowFilterApply` (src/App.tsx lines 223-228); the
captured `globalRowFilter` state is passed explicitly. -/
def rowFilterApply (globalRowFilter : RowFilter) (rows : List ComputedRow)
    (localFilter : RowFilter) : List ComputedRow :=
  let effective := if globalRowFilter = .ALL then localFilter else globalRowFilter
  if effective = .ALL then rows
  else if effective = .GOOD then rows.filter (fun r => r.result = .GOOD)
  else rows.filter (fun r => !(r.result = .GOOD))

/-- Section scope selector ("ALL" | "WITH_BAD" | "WITH_DATA"). -/
inductive SectionScope
  | ALL
  | WITH_BAD
  | WITH_DATA
deriving DecidableEq, Repr

/-- Sort mode selector ("MOST_BAD" | "A_Z"). -/
inductive SortMode
  | MOST_BAD
  | A_Z
deriving DecidableEq, Repr

/-- Model of `a.includes(b)` on strings. -/
def strIncludes (a b : String) : Bool :=
  decide (List.IsInfix b.data a.data)

/-- Section inclusion test of `visibleSections` (src/App.tsx lines
178-187), with `q` already trimmed and lowercased. -/
def sectionIncluded (scope : SectionScope) (q : String) (x : SectionStatsT) : Bool :=
  if scope = .WITH_BAD && x.bad = 0 then false
  else if scope = .WITH_DATA && x.rows.length = 0 then false
  else if q.data.isEmpty then true
  else strIncludes (jsToLower x.sec.title) q ||
    strIncludes (jsToLower x.sec.column) q ||
    strIncludes (jsToLower x.sec.id) q

/-- Total boolean order behind the "MOST_BAD" comparator (src/App.tsx
lines 190-194): bad count descending, then row count descending, then
title ascending. `localeCompare` is modelled as code-point
lexicographic string comparison. -/
def mostBadLE (a b : SectionStatsT) : Bool :=
  if a.bad ≠ b.bad then b.bad < a.bad
  else if a.rows.length ≠ b.rows.length then b.rows.length < a.rows.length
  else a.sec.title ≤ b.sec.title

/-- Total boolean order behind the "A_Z" comparator (src/App.tsx line
196): title ascending. -/
def titleLE (a b : SectionStatsT) : Bool :=
  a.sec.title ≤ b.sec.title

/-- Embedding of `visibleSections` (src/App.tsx lines 175-200): filter
by scope and query, then sort with the selected comparator.
`Array.prototype.sort` is required by ECMAScript to be stable, so it
is modelled by the stable `List.mergeSort`. -/
def visibleSections (stats : List SectionStatsT) (scope : SectionScope)
    (query : String) (sortMode : SortMode) : List SectionStatsT :=
  let q := jsToLower (jsTrim query)
  let list := stats.filter (sectionIncluded scope q)
  match sortMode with
  | .MOST_BAD => list.mergeSort mostBadLE
  | .A_Z => list.mergeSort titleLE

/-- Fraction of in-range rows of a section, as the spec speaks of it:
the source stores the percentage `pctGood`; rescaling by 100 recovers
the fraction. -/
def fracInRange (st : SectionStatsT) : ℚ :=
  st.pctGood / 100

/-- Global fraction of in-range rows, the spec-level reading of the
`pctGood` percentage of `totals`. -/
def globalFracInRange (t : TotalsT) : ℚ :=
  t.pctGood / 100

/-- Modelled from the spec: the unsigned part of "standard decimal
parsing (supports leading sign, decimal point)" — decimal digits with
an optional decimal point, nothing else, consuming the whole string. -/
def specUnsignedDecimal (cs : List Char) : Option ℚ :=
  let (ip, rest) := takeDigits cs
  match rest with
  | [] => if ip.isEmpty then none else some (digitsToNat ip : ℚ)
  | '.' :: rest2 =>
    let (fp, rest3) := takeDigits rest2
    if (ip.isEmpty && fp.isEmpty) || !rest3.isEmpty then none
    else some ((digitsToNat ip : ℚ) + (digitsToNat fp : ℚ) / (10 : ℚ) ^ fp.length)
  | _ => none

/-- Modelled from the spec: "standard decimal parsing (supports leading
sign, decimal point)" — an optional sign followed by an unsigned
decimal literal. Used to state claim C3 in the spec's own terms, for
comparison with the source's `Number` conversion. -/
def specDecimalParse (s : String) : Option ℚ :=
  match s.data with
  | '+' :: rest => specUnsignedDecimal rest
  | '-' :: rest => (specUnsignedDecimal rest).map (fun q => -q)
  | cs => specUnsignedDecimal cs

/-- Remainder handed to number conversion by `parsePercent`: the
trimmed input with its first "%" character removed. -/
def strippedRemainder (s : String) : String :=
  String.mk (removeFirstPercent (jsTrim s).data)

/-- Absence condition of claim C3 as it is stated: null/undefined,
empty after trim, the literal "-", the case-insensitive literal "na",
or a %-stripped remainder that fails standard decimal parsing. -/
def claimAbsentCond (v : Option String) : Bool :=
  match v with
  | none => true
  | some s =>
    let t := jsTrim s
    t.data.isEmpty || t = "-" || jsToLower t = "na" ||
      (specDecimalParse (strippedRemainder s)).isNone

/-- Absence condition with JavaScript `Number` conversion in place of
standard decimal parsing; this is the condition `parsePercent`
actually realises. -/
def extractAbsent (v : Option String) : Bool :=
  match v with
  | none => true
  | some s =>
    let t := jsTrim s
    t.data.isEmpty || t = "-" || jsToLower t = "na" ||
      (jsNumberFinite (strippedRemainder s)).isNone

/-- Effective filter precedence rule as the spec states it: the global
override wins unless it is "no filter" (ALL). -/
def effFilter (g l : RowFilter) : RowFilter :=
  if g = .ALL then l else g

/-- Row retention predicate of each filter value as the spec states
it. -/
def keepRow (f : RowFilter) (r : ComputedRow) : Bool :=
  match f with
  | .ALL => true
  | .GOOD => r.result = .GOOD
  | .BAD => !(r.result = .GOOD)

/-- Skip condition of claim C4 as it is stated: empty-after-trim
position label, no entry in the section's position-to-range mapping,
or absent extracted value. -/
def rowSkipped (sec : Sectn) (r : Row) : Bool :=
  let position := jsTrim ((r.cell "Position").getD "")
  position.data.isEmpty ||
    (recLookup sec.targetsByPosition position).isNone ||
    (parsePercent (r.cell sec.column)).isNone

/-- Ordering relation claim C6 states for the "most out-of-range
first" mode: out-of-range count descending, ties by row count
descending, remaining ties by title ascending. -/
def mostBadKeyOrder (a b : SectionStatsT) : Prop :=
  b.bad < a.bad ∨ (a.bad = b.bad ∧ b.rows.length < a.rows.length) ∨
    (a.bad = b.bad ∧ a.rows.length = b.rows.length ∧ a.sec.title ≤ b.sec.title)

/-- Fixture: a classified row carrying a given outcome (the other
fields are irrelevant to aggregation). -/
def exRow (res : ResultType) : ComputedRow :=
  { position := "BTN", hands := none, value := 0, target := { min := 0, max := 0 },
    result := res, recAction := "" }

/-- Fixture: the "Fold to 3-bet" section of the spec's end-to-end
scenario. -/
def foldSection : Sectn :=
  { id := "fold3bet", title := "Fold to 3-bet", column := "Fold to 3-bet",
    targetsByPosition := [("Button", { min := 50, max := 65 })],
    lowAction := "tighten", goodAction := "balanced", highAction := "widen" }

/-- Fixture: the raw row of the spec's end-to-end scenario. -/
def buttonRow : Row :=
  [("Position", "Button"), ("Fold to 3-bet", "45%")]

/-- Fixture: a raw row with an empty position label. -/
def emptyPosRow : Row :=
  [("Position", ""), ("Fold to 3-bet", "45%")]

/-- Fixture: a section whose id, title and column are all the given
string and whose target mapping is empty. -/
def titledSection (t : String) : Sectn :=
  { id := t, title := t, column := t, targetsByPosition := [],
    lowAction := "", goodAction := "", highAction := "" }

theorem mul_div_hundred (x : ℚ) : x * 100 / 100 = x :=
  mul_div_cancel_right₀ x (by norm_num)

theorem roundHalfEven_intCast (n : ℤ) : roundHalfEven (n : ℚ) = n := by
  simp [roundHalfEven]

theorem floor_le_roundHalfEven (q : ℚ) : ⌊q⌋ ≤ roundHalfEven q := by
  simp only [roundHalfEven]
  split
  · exact le_rfl
  split
  · omega
  split <;> omega

theorem toDoubleQ_dyadic (m t : ℤ) (hm : m ≠ 0) (hmb : |m| < 2 ^ 53)
    (ht : -1074 ≤ t) (ht2 : t ≤ 971) :
    toDoubleQ ((m : ℚ) * (2 : ℚ) ^ t) = some ((m : ℚ) * (2 : ℚ) ^ t) := by
  set q : ℚ := (m : ℚ) * (2 : ℚ) ^ t with hqdef
  have h2t : (0 : ℚ) < (2 : ℚ) ^ t := zpow_pos (by norm_num) t
  have hmq : (m : ℚ) ≠ 0 := Int.cast_ne_zero.mpr hm
  have hq0 : q ≠ 0 := mul_ne_zero hmq (ne_of_gt h2t)
  have habs : |q| = ((|m| : ℤ) : ℚ) * (2 : ℚ) ^ t := by
    rw [hqdef, abs_mul, abs_of_pos h2t, Int.cast_abs]
  have hapos : 0 < |q| := abs_pos.mpr hq0
  have hub : |q| < (2 : ℚ) ^ (t + 53) := by
    rw [habs, zpow_add₀ (by norm_num : (2 : ℚ) ≠ 0)]
    rw [mul_comm ((2 : ℚ) ^ t) ((2 : ℚ) ^ (53 : ℤ))]
    apply mul_lt_mul_of_pos_right ?_ h2t
    have : ((|m| : ℤ) : ℚ) < ((2 ^ 53 : ℤ) : ℚ) := by exact_mod_cast hmb
    calc ((|m| : ℤ) : ℚ) < ((2 ^ 53 : ℤ) : ℚ) := this
      _ = (2 : ℚ) ^ (53 : ℤ) := by push_cast; norm_num
  have hub2 : |q| < ((2 : ℕ) : ℚ) ^ (t + 53) := by exact_mod_cast hub
  have hlog : Int.log 2 |q| ≤ t + 52 := by
    have := (Int.lt_zpow_iff_log_lt (by norm_num) hapos).mp hub2
    omega
  have hk_le : doubleK q ≤ t := by
    unfold doubleK
    split <;> omega
  have hnn : (0 : ℤ) ≤ t - doubleK q := by omega
  have hzp : (2 : ℚ) ^ (t - doubleK q) = (2 : ℚ) ^ ((t - doubleK q).toNat) := by
    rw [← zpow_natCast (2 : ℚ) (t - doubleK q).toNat, Int.toNat_of_nonneg hnn]
  have hx : |q| * (2 : ℚ) ^ (-doubleK q) =
      ((|m| * 2 ^ (t - doubleK q).toNat : ℤ) : ℚ) := by
    rw [habs, mul_assoc, ← zpow_add₀ (by norm_num : (2 : ℚ) ≠ 0)]
    push_cast
    rw [show t + -doubleK q = t - doubleK q from by omega, ← hzp]
  have hn : doubleN q = |m| * 2 ^ (t - doubleK q).toNat := by
    unfold doubleN
    rw [hx, roundHalfEven_intCast]
  have hr : doubleR q = |q| := by
    unfold doubleR
    rw [hn, habs]
    push_cast
    rw [← hzp, mul_assoc, ← zpow_add₀ (by norm_num : (2 : ℚ) ≠ 0)]
    congr 1
    · congr 1
      omega
  have hlt : doubleR q < (2 : ℚ) ^ (1024 : ℤ) := by
    rw [hr]
    exact lt_of_lt_of_le hub (zpow_le_zpow_right₀ (by norm_num) (by omega))
  unfold toDoubleQ
  rw [if_neg hq0, if_neg (not_le.mpr hlt)]
  congr 1
  rw [hr]
  rcases hq0.lt_or_lt with hneg | hpos
  · rw [if_neg (asymm hneg), abs_of_neg hneg]; ring
  · rw [if_pos hpos, abs_of_pos hpos]; ring

theorem toDoubleQ_overflow (q : ℚ) (h : (2 : ℚ) ^ (1024 : ℤ) ≤ |q|) :
    toDoubleQ q = none := by
  have hpos2 : (0 : ℚ) < (2 : ℚ) ^ (1024 : ℤ) := zpow_pos (by norm_num) _
  have hapos : 0 < |q| := lt_of_lt_of_le hpos2 h
  have hq0 : q ≠ 0 := abs_pos.mp hapos
  have h' : ((2 : ℕ) : ℚ) ^ (1024 : ℤ) ≤ |q| := by exact_mod_cast h
  have he : (1024 : ℤ) ≤ Int.log 2 |q| := (Int.zpow_le_iff_le_log (by norm_num) hapos).mp h'
  have hk : doubleK q = Int.log 2 |q| - 52 := by
    unfold doubleK
    rw [if_neg (by omega)]
  have h1 : (2 : ℚ) ^ (Int.log 2 |q|) ≤ |q| := by
    have := Int.zpow_log_le_self (b := 2) (by norm_num) hapos
    exact_mod_cast this
  have hx : (2 : ℚ) ^ (52 : ℤ) ≤ |q| * (2 : ℚ) ^ (-doubleK q) := by
    have h2 : (0 : ℚ) < (2 : ℚ) ^ (-doubleK q) := zpow_pos (by norm_num) _
    calc (2 : ℚ) ^ (52 : ℤ)
        = (2 : ℚ) ^ (Int.log 2 |q|) * (2 : ℚ) ^ (-doubleK q) := by
          rw [← zpow_add₀ (by norm_num : (2 : ℚ) ≠ 0)]
          congr 1
          omega
      _ ≤ |q| * (2 : ℚ) ^ (-doubleK q) := mul_le_mul_of_nonneg_right h1 (le_of_lt h2)
  have hfl : (2 : ℤ) ^ (52 : ℕ) ≤ ⌊|q| * (2 : ℚ) ^ (-doubleK q)⌋ := by
    apply Int.le_floor.mpr
    calc (((2 : ℤ) ^ (52 : ℕ) : ℤ) : ℚ) = (2 : ℚ) ^ (52 : ℤ) := by
          push_cast
          norm_num
      _ ≤ _ := hx
  have hn : (2 : ℤ) ^ (52 : ℕ) ≤ doubleN q := le_trans hfl (floor_le_roundHalfEven _)
  have hrr : (2 : ℚ) ^ (1024 : ℤ) ≤ doubleR q := by
    unfold doubleR
    have h2k : (0 : ℚ) < (2 : ℚ) ^ (doubleK q) := zpow_pos (by norm_num) _
    calc (2 : ℚ) ^ (1024 : ℤ)
        ≤ (2 : ℚ) ^ (52 + doubleK q) := zpow_le_zpow_right₀ (by norm_num) (by omega)
      _ = (2 : ℚ) ^ (52 : ℤ) * (2 : ℚ) ^ (doubleK q) := by
          rw [← zpow_add₀ (by norm_num : (2 : ℚ) ≠ 0)]
      _ ≤ (doubleN q : ℚ) * (2 : ℚ) ^ (doubleK q) := by
          apply mul_le_mul_of_nonneg_right ?_ (le_of_lt h2k)
          calc (2 : ℚ) ^ (52 : ℤ) = (((2 : ℤ) ^ (52 : ℕ) : ℤ) : ℚ) := by
                push_cast
                norm_num
            _ ≤ (doubleN q : ℚ) := by exact_mod_cast hn
  unfold toDoubleQ
  rw [if_neg hq0, if_pos hrr]

theorem toDoubleQ_45 : toDoubleQ 45 = some 45 := by
  have h : (45 : ℚ) = ((45 : ℤ) : ℚ) * (2 : ℚ) ^ (0 : ℤ) := by norm_num
  rw [h]
  exact toDoubleQ_dyadic 45 0 (by norm_num) (by norm_num) (by norm_num) (by norm_num)

theorem toDoubleQ_42_5 : toDoubleQ ((42 : ℚ) + (5 : ℚ) / (10 : ℚ) ^ (1 : ℕ)) =
    some (85 / 2) := by
  have h : (42 : ℚ) + (5 : ℚ) / (10 : ℚ) ^ (1 : ℕ) =
      ((85 : ℤ) : ℚ) * (2 : ℚ) ^ (-1 : ℤ) := by norm_num
  rw [h, toDoubleQ_dyadic 85 (-1) (by norm_num) (by norm_num) (by norm_num) (by norm_num)]
  congr 1
  norm_num

theorem tenPow309_big : (2 : ℚ) ^ (1024 : ℤ) ≤ |(1 : ℚ) * (10 : ℚ) ^ ((1 : ℤ) * 309)| := by
  rw [one_mul, abs_of_pos (zpow_pos (by norm_num) _)]
  rw [show ((1 : ℤ) * 309) = ((309 : ℕ) : ℤ) from by norm_num,
    show ((1024 : ℤ)) = ((1024 : ℕ) : ℤ) from rfl, zpow_natCast, zpow_natCast]
  norm_num

theorem parsePercent_45pct : parsePercent (some "45%") = some 45 := by
  have h1 : parsePercent (some "45%") = (jsNumberMV "45").bind toDoubleQ := rfl
  have h2 : jsNumberMV "45" = some (45 : ℚ) := rfl
  rw [h1, h2, Option.some_bind]
  exact toDoubleQ_45

theorem parsePercent_42_5pct : parsePercent (some "42.5%") = some (85 / 2) := by
  have h1 : parsePercent (some "42.5%") = (jsNumberMV "42.5").bind toDoubleQ := rfl
  have h2 : jsNumberMV "42.5" = some ((42 : ℚ) + (5 : ℚ) / (10 : ℚ) ^ (1 : ℕ)) := rfl
  rw [h1, h2, Option.some_bind]
  exact toDoubleQ_42_5

theorem parsePercent_1e309 : parsePercent (some "1e309") = none := by
  have h1 : parsePercent (some "1e309") = (jsNumberMV "1e309").bind toDoubleQ := rfl
  have h2 : jsNumberMV "1e309" = some ((1 : ℚ) * (10 : ℚ) ^ ((1 : ℤ) * 309)) := rfl
  rw [h1, h2, Option.some_bind]
  exact toDoubleQ_overflow _ tenPow309_big

theorem classifyRowOpt_eval (sec : Sectn) (r : Row) (tgt : TargetRange) (v : ℚ)
    (hpos : (jsTrim ((Row.cell r "Position").getD "")).data.isEmpty = false)
    (htgt : recLookup sec.targetsByPosition
      (jsTrim ((Row.cell r "Position").getD "")) = some tgt)
    (hval : parsePercent (Row.cell r sec.column) = some v) :
    classifyRowOpt sec r = some
      { position := jsTrim ((Row.cell r "Position").getD ""),
        hands := Row.cell r "Hands", value := v, target := tgt,
        result := classify v tgt,
        recAction := match classify v tgt with
          | ResultType.GOOD => sec.goodAction
          | ResultType.LOW => sec.lowAction
          | ResultType.HIGH => sec.highAction } := by
  simp only [classifyRowOpt, hpos, htgt, hval]
  rfl

theorem classifyButton : classifyRowOpt foldSection buttonRow = some
    { position := "Button", hands := none, value := 45,
      target := { min := 50, max := 65 }, result := .LOW,
      recAction := "tighten" } := by
  rw [classifyRowOpt_eval foldSection buttonRow { min := 50, max := 65 } 45
    (by decide) (by decide) parsePercent_45pct]
  rw [show classify 45 { min := 50, max := 65 } = ResultType.LOW from by decide]
  decide

/-- C1: per-section statistics: the in-range count is the number of
rows with outcome in-range, the out-of-range count is the total minus
the in-range count, and the fraction in-range (the stored percentage
rescaled) is the in-range count divided by the total rows — 1/3 for a
section classified [in-range, below-range, above-range] — and 0, not
an error value, for a section with zero rows. -/
theorem C1_section_stats_correct :
    (∀ (s : Sectn) (rows : List ComputedRow),
      (mkSectionStats s rows).good =
          (rows.filter (fun r => r.result = ResultType.GOOD)).length ∧
      (mkSectionStats s rows).bad = rows.length - (mkSectionStats s rows).good ∧
      fracInRange (mkSectionStats s rows) =
        (if rows.length = 0 then 0
         else ((mkSectionStats s rows).good : ℚ) / (rows.length : ℚ))) ∧
    fracInRange (mkSectionStats foldSection
      [exRow .GOOD, exRow .LOW, exRow .HIGH]) = 1 / 3 ∧
    (mkSectionStats foldSection [exRow .GOOD, exRow .LOW, exRow .HIGH]).good = 1 ∧
    (mkSectionStats foldSection [exRow .GOOD, exRow .LOW, exRow .HIGH]).bad = 2 ∧
    fracInRange (mkSectionStats foldSection []) = 0 := by
  have hgen : ∀ (s : Sectn) (rows : List ComputedRow),
      (mkSectionStats s rows).good =
          (rows.filter (fun r => r.result = ResultType.GOOD)).length ∧
      (mkSectionStats s rows).bad = rows.length - (mkSectionStats s rows).good ∧
      fracInRange (mkSectionStats s rows) =
        (if rows.length = 0 then 0
         else ((mkSectionStats s rows).good : ℚ) / (rows.length : ℚ)) := by
    intro s rows
    refine ⟨rfl, rfl, ?_⟩
    by_cases h : rows.length = 0
    · simp [mkSectionStats, fracInRange, h]
    · simp only [mkSectionStats, fracInRange, h, ne_eq, not_false_eq_true, if_true, if_neg]
      exact mul_div_hundred _
  have hgood : (mkSectionStats foldSection
      [exRow .GOOD, exRow .LOW, exRow .HIGH]).good = 1 := by decide
  have hbad : (mkSectionStats foldSection
      [exRow .GOOD, exRow .LOW, exRow .HIGH]).bad = 2 := by decide
  have hfrac := (hgen foldSection [exRow .GOOD, exRow .LOW, exRow .HIGH]).2.2
  rw [hgood] at hfrac
  norm_num at hfrac
  have hempty := (hgen foldSection []).2.2
  norm_num at hempty
  exact ⟨hgen, hfrac, hgood, hbad, hempty⟩

/-- C2 counterexample: for the degenerate range min = max = 20 (which
the claim admits, requiring only min ≤ max) the value 20 satisfies
v ≥ max yet is classified below-range, not above-range. -/
theorem C2_counterexample :
    (20 : ℚ) ≤ 20 ∧ (20 : ℚ) ≥ 20 ∧
    classify 20 { min := 20, max := 20 } = .LOW ∧
    ¬ classify 20 { min := 20, max := 20 } = .HIGH := by decide

/-- C2 (amended to ranges with min < max): the classifier returns
below-range when v ≤ min, above-range when v ≥ max and in-range
otherwise; the boundary values min and max are classified below-range
and above-range respectively, never in-range; and for the range 20-40
the values 20, 40, 20.01 and 39.99 classify as LOW, HIGH, GOOD and
GOOD. -/
theorem C2_classify_boundary_policy (v mn mx : ℚ) (h : mn < mx) :
    (v ≤ mn → classify v { min := mn, max := mx } = .LOW) ∧
    (v ≥ mx → classify v { min := mn, max := mx } = .HIGH) ∧
    (mn < v → v < mx → classify v { min := mn, max := mx } = .GOOD) ∧
    classify mn { min := mn, max := mx } = .LOW ∧
    classify mx { min := mn, max := mx } = .HIGH ∧
    classify 20 { min := 20, max := 40 } = .LOW ∧
    classify 40 { min := 20, max := 40 } = .HIGH ∧
    classify (2001 / 100) { min := 20, max := 40 } = .GOOD ∧
    classify (3999 / 100) { min := 20, max := 40 } = .GOOD := by
  refine ⟨fun hv => ?_, fun hv => ?_, fun h1 h2 => ?_, ?_, ?_,
    by decide, by decide, by norm_num [classify], by norm_num [classify]⟩
  · simp [classify, hv]
  · have hnle : ¬ v ≤ mn := not_le.mpr (lt_of_lt_of_le h hv)
    simp [classify, hnle, hv]
  · have h3 : ¬ v ≤ mn := not_le.mpr h1
    have h4 : ¬ v ≥ mx := not_le.mpr h2
    simp [classify, h3, h4]
  · simp [classify]
  · have hnle : ¬ mx ≤ mn := not_le.mpr h
    simp [classify, hnle]

/-- Witness for C2 at the concrete range 20-40 and value 20. -/
theorem C2_classify_boundary_policy_witness :
    (20 : ℚ) < 40 ∧ ((20 : ℚ) ≤ 20 → classify 20 { min := 20, max := 40 } = .LOW) :=
  ⟨by norm_num, (C2_classify_boundary_policy 20 20 40 (by norm_num)).1⟩

/-- C9: the goodStats and pctGoodStats fields of the totals are the
constant 0 and badStats always equals totalStats, the number of
sections with at least one row, independent of the data. -/
theorem C9_dead_stats_fields (stats : List SectionStatsT) :
    (totals stats).goodStats = 0 ∧
    (totals stats).pctGoodStats = 0 ∧
    (totals stats).badStats = (totals stats).totalStats ∧
    (totals stats).totalStats = (stats.filter (fun x => x.rows.length > 0)).length := by
  refine ⟨rfl, ?_, rfl, rfl⟩
  simp [totals]

/-- C10: for a degenerate target range with min = max every value
satisfies v ≤ min or v ≥ max, is never classified in-range, and the
shared boundary value classifies below-range. -/
theorem C10_degenerate_range_never_good (v mn mx : ℚ) (h : mn = mx) :
    (v ≤ mn ∨ v ≥ mx) ∧
    classify v { min := mn, max := mx } ≠ .GOOD ∧
    (classify v { min := mn, max := mx } = .LOW ∨
      classify v { min := mn, max := mx } = .HIGH) ∧
    classify mn { min := mn, max := mx } = .LOW := by
  subst h
  by_cases hv : v ≤ mn
  · exact ⟨Or.inl hv, by simp [classify, hv], Or.inl (by simp [classify, hv]),
      by simp [classify]⟩
  · have hge : v ≥ mn := le_of_lt (lt_of_not_le hv)
    exact ⟨Or.inr hge, by simp [classify, hv, hge], Or.inr (by simp [classify, hv, hge]),
      by simp [classify]⟩

/-- Witness for C10 at the degenerate range 20-20 and value 30. -/
theorem C10_degenerate_range_never_good_witness :
    (20 : ℚ) = 20 ∧
    (((30 : ℚ) ≤ 20 ∨ (30 : ℚ) ≥ 20) ∧
      classify 30 { min := 20, max := 20 } ≠ .GOOD ∧
      (classify 30 { min := 20, max := 20 } = .LOW ∨
        classify 30 { min := 20, max := 20 } = .HIGH) ∧
      classify 20 { min := 20, max := 20 } = .LOW) :=
  ⟨rfl, C10_degenerate_range_never_good 30 20 20 rfl⟩

/-- C5: the effective filter is the global filter unless that is "no
filter", in which case the section's own filter applies; GOOD retains
exactly the in-range rows, BAD exactly the others, ALL all rows; and
the result is a sublist of the input, so filtering never reorders. -/
theorem C5_row_filter_semantics :
    (∀ (g l : RowFilter) (rows : List ComputedRow),
        rowFilterApply g rows l = rows.filter (keepRow (effFilter g l))) ∧
    (∀ (f : RowFilter) (r : ComputedRow),
        keepRow f r = true ↔
          (f = .ALL ∨ (f = .GOOD ∧ r.result = .GOOD) ∨
            (f = .BAD ∧ r.result ≠ .GOOD))) ∧
    (∀ (g l : RowFilter) (rows : List ComputedRow),
        List.Sublist (rowFilterApply g rows l) rows) ∧
    (∀ (g l : RowFilter) (rows : List ComputedRow) (r : ComputedRow),
        r ∈ rowFilterApply g rows l ↔
          r ∈ rows ∧ keepRow (effFilter g l) r = true) := by
  have h1 : ∀ (g l : RowFilter) (rows : List ComputedRow),
      rowFilterApply g rows l = rows.filter (keepRow (effFilter g l)) := by
    intro g l rows
    cases g <;> cases l <;>
      first
        | exact (List.filter_true rows).symm
        | rfl
  refine ⟨h1, ?_, ?_, ?_⟩
  · intro f r
    cases f <;> simp [keepRow]
  · intro g l rows
    rw [h1]
    exact List.filter_sublist rows
  · intro g l rows r
    rw [h1]
    simp [List.mem_filter]

/-- C8: every anomalous condition takes the defined silent-skip or
zero-default branch: absent and unparsable cells extract to none, a
zero-row section and empty totals use the 0 default, a row that fails
resolution drops out of its section leaving the remaining rows'
results unchanged, and the empty statistics list yields the empty
view; each operation is a total function of this embedding. -/
theorem C8_silent_defaults :
    parsePercent none = none ∧
    parsePercent (some "abc") = none ∧
    (∀ s : Sectn, (mkSectionStats s []).pctGood = 0) ∧
    (totals []).pctGood = 0 ∧
    (totals []).pctGoodStats = 0 ∧
    (∀ (sec : Sectn) (r : Row) (rest : List Row),
        classifyRowOpt sec r = none →
          computeSection sec (r :: rest) = computeSection sec rest) ∧
    (∀ (scope : SectionScope) (q : String) (m : SortMode),
        visibleSections [] scope q m = []) ∧
    (∀ (g l : RowFilter), rowFilterApply g [] l = []) := by
  refine ⟨rfl, by decide, fun s => rfl, rfl, rfl, ?_, ?_, ?_⟩
  · intro sec r rest h
    simp [computeSection, List.filterMap_cons, h]
  · intro scope q m
    cases m <;> simp [visibleSections]
  · intro g l
    cases g <;> cases l <;> simp [rowFilterApply]

/-- Witness for C8: a row with an empty position label is skipped and
the section's results equal those of the remaining rows. -/
theorem C8_silent_defaults_witness :
    classifyRowOpt foldSection emptyPosRow = none ∧
    computeSection foldSection (emptyPosRow :: [buttonRow]) =
      computeSection foldSection [buttonRow] :=
  ⟨by decide,
    C8_silent_defaults.2.2.2.2.2.1 foldSection emptyPosRow [buttonRow] (by decide)⟩

theorem parsePercent_some (s : String) :
    parsePercent (some s) =
      if (jsTrim s).data.isEmpty || jsTrim s = "-" || jsToLower (jsTrim s) = "na" then none
      else jsNumberFinite (strippedRemainder s) := rfl

theorem extractAbsent_some (s : String) :
    extractAbsent (some s) =
      ((jsTrim s).data.isEmpty || jsTrim s = "-" || jsToLower (jsTrim s) = "na" ||
        (jsNumberFinite (strippedRemainder s)).isNone) := rfl

/-- C3 counterexample: the input "%" meets none of the stated absence
conditions except the parse clause — its %-stripped remainder is the
empty string, which standard decimal parsing rejects — so the claim as
stated predicts absent; yet the extractor returns 0, because
JavaScript Number("") converts to 0. -/
theorem C3_counterexample :
    claimAbsentCond (some "%") = true ∧ parsePercent (some "%") = some 0 := by decide

/-- C3 (amended): the extractor returns absent exactly when the input
is undefined/null, empty after trim, the literal "-", the
case-insensitive literal "na", or the %-stripped remainder does not
convert to a finite number under JavaScript Number string conversion -
parsing the literal's exact mathematical value (the empty remainder
converts to 0, so extract("%") = 0; hex/binary/octal and exponent
literals are numbers) and rounding it to the nearest IEEE-754 binary64
value, with NaN and the overflow-to-infinity cases absent (so
extract("1e309") = absent); otherwise it returns that converted
number. The spec's listed examples hold. -/
theorem C3_extract_characterization :
    (∀ v : Option String, parsePercent v = none ↔ extractAbsent v = true) ∧
    (∀ s : String, extractAbsent (some s) = false →
        parsePercent (some s) = jsNumberFinite (strippedRemainder s)) ∧
    parsePercent none = none ∧
    parsePercent (some "") = none ∧
    parsePercent (some "-") = none ∧
    parsePercent (some "NA") = none ∧
    parsePercent (some "na") = none ∧
    parsePercent (some "42.5%") = some (85 / 2) ∧
    parsePercent (some "abc") = none ∧
    parsePercent (some "%") = some 0 ∧
    parsePercent (some "1e309") = none := by
  refine ⟨?_, ?_, rfl, by decide, by decide, by decide, by decide,
    parsePercent_42_5pct, by decide, by decide, parsePercent_1e309⟩
  · intro v
    cases v with
    | none => exact iff_of_true rfl rfl
    | some s =>
      rw [parsePercent_some, extractAbsent_some]
      rcases ho : jsNumberFinite (strippedRemainder s) with _ | q <;>
        by_cases h1 : (jsTrim s).data.isEmpty <;>
        by_cases h2 : jsTrim s = "-" <;>
        by_cases h3 : jsToLower (jsTrim s) = "na" <;>
        simp [h1, h2, h3, ho]
  · intro s h
    rw [extractAbsent_some] at h
    rw [parsePercent_some]
    by_cases h1 : (jsTrim s).data.isEmpty <;>
      by_cases h2 : jsTrim s = "-" <;>
      by_cases h3 : jsToLower (jsTrim s) = "na" <;>
      simp_all

theorem extractAbsent_45pct : extractAbsent (some "45%") = false := by
  rw [extractAbsent_some]
  rw [show jsNumberFinite (strippedRemainder "45%") = some 45 from parsePercent_45pct]
  decide

/-- Witness for C3 at the concrete input "45%". -/
theorem C3_extract_characterization_witness :
    extractAbsent (some "45%") = false ∧
    parsePercent (some "45%") = jsNumberFinite (strippedRemainder "45%") :=
  ⟨extractAbsent_45pct,
    C3_extract_characterization.2.1 "45%" extractAbsent_45pct⟩

/-- C4: a row is excluded from a section's classified sequence exactly
when its trimmed position label is empty, the section's target mapping
has no entry for the exact label, or the extracted value is absent; a
skipped row leaves the other rows' contributions unchanged, and a row
still appears in any section whose resolution it passes. -/
theorem C4_row_exclusion :
    (∀ (sec : Sectn) (r : Row),
        classifyRowOpt sec r = none ↔ rowSkipped sec r = true) ∧
    (∀ (sec : Sectn) (xs ys : List Row) (r : Row),
        computeSection sec (xs ++ r :: ys) =
          computeSection sec xs ++ (classifyRowOpt sec r).toList ++
            computeSection sec ys) ∧
    (∀ (sec2 : Sectn) (rows : List Row) (r : Row) (cr : ComputedRow),
        r ∈ rows → classifyRowOpt sec2 r = some cr →
          cr ∈ computeSection sec2 rows) := by
  refine ⟨?_, ?_, ?_⟩
  · intro sec r
    unfold classifyRowOpt rowSkipped
    rcases hlook : recLookup sec.targetsByPosition
        (jsTrim ((r.cell "Position").getD "")) with _ | tgt <;>
      rcases hval : parsePercent (r.cell sec.column) with _ | q <;>
      by_cases hpos : (jsTrim ((r.cell "Position").getD "")).data.isEmpty <;>
      simp [hlook, hval, hpos]
  · intro sec xs ys r
    rw [show (xs ++ r :: ys) = xs ++ [r] ++ ys by simp]
    simp only [computeSection, List.filterMap_append]
    rcases h : classifyRowOpt sec r with _ | cr <;>
      simp [List.filterMap_cons, h]
  · intro sec2 rows r cr hr hc
    simp only [computeSection, List.mem_filterMap]
    exact ⟨r, hr, hc⟩

/-- Witness for C4: the Button row of the spec's end-to-end scenario
resolves in the Fold-to-3-bet section and appears in its results even
though another row of the input is skipped. -/
theorem C4_row_exclusion_witness :
    buttonRow ∈ ([emptyPosRow, buttonRow] : List Row) ∧
    classifyRowOpt foldSection buttonRow = some
      { position := "Button", hands := none, value := 45,
        target := { min := 50, max := 65 }, result := .LOW,
        recAction := "tighten" } ∧
    ({ position := "Button", hands := none, value := 45,
       target := { min := 50, max := 65 }, result := .LOW,
       recAction := "tighten" } : ComputedRow) ∈
      computeSection foldSection [emptyPosRow, buttonRow] :=
  ⟨by decide, classifyButton,
    C4_row_exclusion.2.2 foldSection [emptyPosRow, buttonRow] buttonRow _
      (by decide) classifyButton⟩

theorem mostBadLE_iff (a b : SectionStatsT) :
    mostBadLE a b = true ↔ mostBadKeyOrder a b := by
  unfold mostBadLE mostBadKeyOrder
  by_cases h1 : a.bad = b.bad <;> by_cases h2 : a.rows.length = b.rows.length <;>
    simp [h1, h2]

theorem mostBadKeyOrder_trans (a b c : SectionStatsT)
    (hab : mostBadKeyOrder a b) (hbc : mostBadKeyOrder b c) :
    mostBadKeyOrder a c := by
  unfold mostBadKeyOrder at hab hbc ⊢
  rcases hab with h | ⟨e1, h⟩ | ⟨e1, e2, h⟩ <;>
    rcases hbc with h' | ⟨f1, h'⟩ | ⟨f1, f2, h'⟩ <;>
    first
      | (apply Or.inl; omega)
      | (apply Or.inr; apply Or.inl; constructor <;> omega)
      | (apply Or.inr; apply Or.inr;
         exact ⟨by omega, by omega, le_trans h h'⟩)

theorem mostBadLE_total (a b : SectionStatsT) :
    mostBadLE a b = true ∨ mostBadLE b a = true := by
  rw [mostBadLE_iff, mostBadLE_iff]
  unfold mostBadKeyOrder
  rcases Nat.lt_trichotomy a.bad b.bad with h | h | h
  · exact Or.inr (Or.inl h)
  · rcases Nat.lt_trichotomy a.rows.length b.rows.length with h2 | h2 | h2
    · exact Or.inr (Or.inr (Or.inl ⟨h.symm, h2⟩))
    · rcases le_total a.sec.title b.sec.title with h3 | h3
      · exact Or.inl (Or.inr (Or.inr ⟨h, h2, h3⟩))
      · exact Or.inr (Or.inr (Or.inr ⟨h.symm, h2.symm, h3⟩))
    · exact Or.inl (Or.inr (Or.inl ⟨h, h2⟩))
  · exact Or.inl (Or.inl h)

theorem mergeSort_pair {α : Type} (le : α → α → Bool) (x y : α) :
    List.mergeSort [x, y] le = if le x y then [x, y] else [y, x] := by
  rw [List.mergeSort]
  simp [List.splitInTwo, List.merge, List.mergeSort]

theorem tiePairLE : mostBadLE (mkSectionStats (titledSection "B") [])
    (mkSectionStats (titledSection "A") []) = false := by
  simp [mostBadLE, mkSectionStats, titledSection]
  decide

theorem tiePairFilter : List.filter
    (sectionIncluded SectionScope.ALL (jsToLower (jsTrim "")))
    [mkSectionStats (titledSection "B") [], mkSectionStats (titledSection "A") []] =
    [mkSectionStats (titledSection "B") [], mkSectionStats (titledSection "A") []] := by
  decide

/-- C6: in "most out-of-range first" mode the view selector returns a
permutation of the included sections pairwise ordered by out-of-range
count descending, ties broken by row count descending and then by
title ascending; the result of re-running it on identical input is
identical, and two sections tied on both counts order by title
ascending (concrete two-section tie included). -/
theorem C6_most_bad_ordering (stats : List SectionStatsT) (scope : SectionScope)
    (q : String) :
    List.Perm (visibleSections stats scope q .MOST_BAD)
      (stats.filter (sectionIncluded scope (jsToLower (jsTrim q)))) ∧
    List.Pairwise mostBadKeyOrder (visibleSections stats scope q .MOST_BAD) ∧
    visibleSections stats scope q .MOST_BAD =
      visibleSections stats scope q .MOST_BAD ∧
    visibleSections
        [mkSectionStats (titledSection "B") [], mkSectionStats (titledSection "A") []]
        .ALL "" .MOST_BAD =
      [mkSectionStats (titledSection "A") [], mkSectionStats (titledSection "B") []] := by
  refine ⟨?_, ?_, rfl, ?_⟩
  · exact List.mergeSort_perm
      (stats.filter (sectionIncluded scope (jsToLower (jsTrim q)))) mostBadLE
  · have htrans : ∀ a b c : SectionStatsT,
        mostBadLE a b → mostBadLE b c → mostBadLE a c := by
      intro a b c hab hbc
      rw [mostBadLE_iff] at hab hbc ⊢
      exact mostBadKeyOrder_trans a b c hab hbc
    have htotal : ∀ a b : SectionStatsT, mostBadLE a b || mostBadLE b a := by
      intro a b
      rcases mostBadLE_total a b with h | h <;> simp [h]
    have hp := List.sorted_mergeSort htrans htotal
      (stats.filter (sectionIncluded scope (jsToLower (jsTrim q))))
    exact hp.imp (fun hab => (mostBadLE_iff _ _).mp hab)
  · show List.mergeSort (List.filter _ _) mostBadLE = _
    rw [tiePairFilter, mergeSort_pair, tiePairLE]
    simp

theorem foldl_add_eq_sum {α : Type} (f : α → ℕ) :
    ∀ (l : List α) (n : ℕ),
      l.foldl (fun acc x => acc + f x) n = n + (l.map f).sum := by
  intro l
  induction l with
  | nil => intro n; simp
  | cons x xs ih => intro n; simp [ih]; omega

theorem totals_totalRows (stats : List SectionStatsT) :
    (totals stats).totalRows = (stats.map (fun x => x.rows.length)).sum := by
  show stats.foldl (fun acc x => acc + x.rows.length) 0 = _
  exact (foldl_add_eq_sum (fun x => x.rows.length) stats 0).trans (Nat.zero_add _)

theorem totals_totalGood (stats : List SectionStatsT) :
    (totals stats).totalGood = (stats.map (fun x => x.good)).sum := by
  show stats.foldl (fun acc x => acc + x.good) 0 = _
  exact (foldl_add_eq_sum (fun x => x.good) stats 0).trans (Nat.zero_add _)

theorem totals_pctGood_def (stats : List SectionStatsT) :
    (totals stats).pctGood =
      (if (totals stats).totalRows ≠ 0 then
        ((totals stats).totalGood : ℚ) / ((totals stats).totalRows : ℚ) * 100
       else 0) := rfl

theorem totals_pctGoodStats_zero (stats : List SectionStatsT) :
    (totals stats).pctGoodStats = 0 := by
  simp [totals]

theorem sum_bad_split {l : List SectionStatsT}
    (h : ∀ x ∈ l, x.good ≤ x.rows.length ∧ x.bad = x.rows.length - x.good) :
    (l.map (fun x => x.bad)).sum =
      (l.map (fun x => x.rows.length)).sum - (l.map (fun x => x.good)).sum ∧
    (l.map (fun x => x.good)).sum ≤ (l.map (fun x => x.rows.length)).sum := by
  induction l with
  | nil => simp
  | cons x xs ih =>
    obtain ⟨h1, h2⟩ := h x (List.mem_cons_self x xs)
    obtain ⟨ih1, ih2⟩ := ih (fun y hy => h y (List.mem_cons_of_mem x hy))
    simp only [List.map_cons, List.sum_cons]
    omega

theorem sectionStats_wf (sections : List Sectn) (rawRows : List Row) :
    ∀ x ∈ sectionStats sections rawRows,
      x.good ≤ x.rows.length ∧ x.bad = x.rows.length - x.good := by
  intro x hx
  simp only [sectionStats, List.mem_map] at hx
  obtain ⟨s, hs, rfl⟩ := hx
  exact ⟨List.length_filter_le _ _, rfl⟩

/-- C7: the totals are the sums of the per-section in-range and
out-of-range counts, the global fraction in-range is global in-range
over global total (0 when the global total is 0), the with-data and
with-out-of-range counters count the respective sections, and every
numeric total is invariant under permuting the section statistics. -/
theorem C7_totals_additive :
    (∀ (sections : List Sectn) (rawRows : List Row),
      (totals (sectionStats sections rawRows)).totalRows =
        ((sectionStats sections rawRows).map (fun x => x.rows.length)).sum ∧
      (totals (sectionStats sections rawRows)).totalGood =
        ((sectionStats sections rawRows).map (fun x => x.good)).sum ∧
      (totals (sectionStats sections rawRows)).totalBad =
        ((sectionStats sections rawRows).map (fun x => x.bad)).sum ∧
      globalFracInRange (totals (sectionStats sections rawRows)) =
        (if (totals (sectionStats sections rawRows)).totalRows = 0 then 0
         else ((totals (sectionStats sections rawRows)).totalGood : ℚ) /
            ((totals (sectionStats sections rawRows)).totalRows : ℚ)) ∧
      (totals (sectionStats sections rawRows)).sectionsWithData =
        ((sectionStats sections rawRows).filter (fun x => x.rows.length > 0)).length ∧
      (totals (sectionStats sections rawRows)).sectionsWithBad =
        ((sectionStats sections rawRows).filter (fun x => x.bad > 0)).length) ∧
    (∀ (s1 s2 : List SectionStatsT), List.Perm s1 s2 →
      (totals s1).totalRows = (totals s2).totalRows ∧
      (totals s1).totalGood = (totals s2).totalGood ∧
      (totals s1).totalBad = (totals s2).totalBad ∧
      (totals s1).pctGood = (totals s2).pctGood ∧
      (totals s1).sectionsWithData = (totals s2).sectionsWithData ∧
      (totals s1).sectionsWithBad = (totals s2).sectionsWithBad ∧
      (totals s1).totalStats = (totals s2).totalStats ∧
      (totals s1).pctGoodStats = (totals s2).pctGoodStats) := by
  have hfrac : ∀ stats : List SectionStatsT,
      globalFracInRange (totals stats) =
        (if (totals stats).totalRows = 0 then 0
         else ((totals stats).totalGood : ℚ) / ((totals stats).totalRows : ℚ)) := by
    intro stats
    have hg : globalFracInRange (totals stats) = (totals stats).pctGood / 100 := rfl
    rw [hg, totals_pctGood_def]
    by_cases h : (totals stats).totalRows = 0
    · simp [h]
    · simp only [h, ne_eq, not_false_eq_true, if_true, if_neg]
      exact mul_div_hundred _
  have hfilt : ∀ (stats : List SectionStatsT) (p : SectionStatsT → Bool),
      (stats.filter p).length = stats.countP p :=
    fun stats p => (List.countP_eq_length_filter p stats).symm
  refine ⟨?_, ?_⟩
  · intro sections rawRows
    obtain ⟨hb, _⟩ := sum_bad_split (sectionStats_wf sections rawRows)
    refine ⟨totals_totalRows _, totals_totalGood _, ?_, hfrac _, rfl, rfl⟩
    have : (totals (sectionStats sections rawRows)).totalBad =
        (totals (sectionStats sections rawRows)).totalRows -
          (totals (sectionStats sections rawRows)).totalGood := rfl
    rw [this, totals_totalRows, totals_totalGood, hb]
  · intro s1 s2 hp
    have hrows : (totals s1).totalRows = (totals s2).totalRows := by
      rw [totals_totalRows, totals_totalRows]
      exact (hp.map (fun x => x.rows.length)).sum_eq
    have hgood : (totals s1).totalGood = (totals s2).totalGood := by
      rw [totals_totalGood, totals_totalGood]
      exact (hp.map (fun x => x.good)).sum_eq
    have hwd : (totals s1).sectionsWithData = (totals s2).sectionsWithData := by
      show (s1.filter (fun x => x.rows.length > 0)).length =
        (s2.filter (fun x => x.rows.length > 0)).length
      rw [hfilt, hfilt]
      exact hp.countP_eq _
    have hwb : (totals s1).sectionsWithBad = (totals s2).sectionsWithBad := by
      show (s1.filter (fun x => x.bad > 0)).length =
        (s2.filter (fun x => x.bad > 0)).length
      rw [hfilt, hfilt]
      exact hp.countP_eq _
    have hts : (totals s1).totalStats = (totals s2).totalStats := by
      show (s1.filter (fun x => x.rows.length > 0)).length =
        (s2.filter (fun x => x.rows.length > 0)).length
      rw [hfilt, hfilt]
      exact hp.countP_eq _
    have hbad : (totals s1).totalBad = (totals s2).totalBad := by
      have e1 : (totals s1).totalBad =
          (totals s1).totalRows - (totals s1).totalGood := rfl
      have e2 : (totals s2).totalBad =
          (totals s2).totalRows - (totals s2).totalGood := rfl
      rw [e1, e2, hrows, hgood]
    have hpct : (totals s1).pctGood = (totals s2).pctGood := by
      rw [totals_pctGood_def, totals_pctGood_def, hrows, hgood]
    exact ⟨hrows, hgood, hbad, hpct, hwd, hwb, hts,
      (totals_pctGoodStats_zero s1).trans (totals_pctGoodStats_zero s2).symm⟩

/-- Witness for C7 at a concrete two-element permutation. -/
theorem C7_totals_additive_witness :
    List.Perm
      [mkSectionStats (titledSection "A") [], mkSectionStats (titledSection "B") []]
      [mkSectionStats (titledSection "B") [], mkSectionStats (titledSection "A") []] ∧
    (totals [mkSectionStats (titledSection "A") [],
        mkSectionStats (titledSection "B") []]).totalRows =
      (totals [mkSectionStats (titledSection "B") [],
        mkSectionStats (titledSection "A") []]).totalRows :=
  ⟨List.Perm.swap _ _ _,
    (C7_totals_additive.2 _ _ (List.Perm.swap _ _ _)).1⟩
